import Mathlib

/-!
# NativeCollation: the JNI wrapper around the collation engine

A shallow embedding of `luni/src/main/native/libcore_icu_NativeCollation.cpp`.

* Machine integers: `jint` is an `Int` in the signed 32-bit range, `uintptr_t` a `Nat`
  below `2 ^ w` for the pointer width `w`; the two casts between them are written out
  with explicit `% 2 ^ _`.
* A `ScopedStringChars` is modelled by what the wrapper reads from it: `none` when
  `get()` is `NULL`, `some chars` otherwise (`size()` is the length of `chars`).
* The collation engine (`ucol_*`) is not part of the wrapper.  Its entry points are the
  fields of `Engine`, over an abstract engine state; a `UErrorCode*` in/out parameter is
  an argument plus a component of the result.
* Sizes in `getSortKey` are natural numbers: the engine reports the length of a key, so
  the `int32_t`/`size_t` conversions of the source are the identity on the values that
  occur, and for a positive `UCOL_MAX_BUFFER` the truncated subtraction in
  `sizeof(byteArray) - 1` is the C expression.
-/

namespace NativeCollation

/-- One byte of a sort key (`uint8_t`, copied bit for bit into a `jbyte`). -/
abbrev Byte := Fin 256

/-- One UTF-16 code unit of a marshalled string; the wrapper never inspects it. -/
abbrev UChar := Nat

/-- The 32-bit signed Java integer. -/
abbrev jint := Int

/-- The engine's status code type. -/
abbrev UErrorCode := Int

/-- What an engine call that takes `UErrorCode* status` leaves behind: the returned value,
the status now stored in `*status`, and the engine state. -/
structure EngineCall (σ α : Type) where
  result : α
  status : UErrorCode
  state : σ

/-- The engine entry points the wrapper calls, with the header constants it uses
(`U_ZERO_ERROR`, `U_FAILURE`, `UCOL_MAX_BUFFER`, `U_COL_SAFECLONE_BUFFERSIZE`), taken as
parameters.  Native addresses are `uintptr_t` values.  Functions that take a
`const UCollator*` only read the state. -/
structure Engine (σ : Type) where
  U_ZERO_ERROR : UErrorCode
  U_FAILURE : UErrorCode → Bool
  UCOL_MAX_BUFFER : Nat
  U_COL_SAFECLONE_BUFFERSIZE : Int
  ucol_strcoll : σ → Nat → List UChar → List UChar → Int
  sortKey : σ → Nat → List UChar → List Byte
  ucol_getAttribute : σ → Nat → Int → UErrorCode → Int × UErrorCode
  ucol_setAttribute : σ → Nat → Int → Int → UErrorCode → EngineCall σ Unit
  ucol_openElements : σ → Nat → List UChar → UErrorCode → EngineCall σ Nat
  ucol_next : σ → Nat → UErrorCode → EngineCall σ Int
  ucol_previous : σ → Nat → UErrorCode → EngineCall σ Int
  ucol_open : σ → String → UErrorCode → EngineCall σ Nat
  ucol_openRules : σ → List UChar → Int → Int → UErrorCode → EngineCall σ Nat
  ucol_safeClone : σ → Nat → Int → UErrorCode → EngineCall σ Nat
  ucol_setOffset : σ → Nat → Int → UErrorCode → EngineCall σ Unit
  ucol_setText : σ → Nat → List UChar → UErrorCode → EngineCall σ Unit

/-- What one `ucol_getSortKey` call saw and left behind: the size of the buffer `result`
pointed to and the capacity `resultLength` it was handed, the buffer after the call, how
many bytes the engine wrote, whether some of them fell beyond the end of the buffer, and
the returned length. -/
structure SortKeyCall where
  bufferSize : Nat
  capacity : Nat
  buffer : List Byte
  written : Nat
  overrun : Bool
  length : Nat

/-- Modelled from the spec: the engine call `ucol_getSortKey(coll, source, length, result,
resultLength)`, which is not under src/.  The engine writes at most `resultLength` bytes of
the full key of the text (its first `min resultLength n` bytes) from the start of `result`
and returns the full key length `n`.  The buffer keeps its size: bytes written beyond its
end are an overrun and are not part of it. -/
def Engine.ucol_getSortKey {σ : Type} (E : Engine σ) (s : σ) (coll : Nat)
    (source : List UChar) (result : List Byte) (resultLength : Nat) : SortKeyCall :=
  let key := E.sortKey s coll source
  let out := key.take resultLength
  { bufferSize := result.length, capacity := resultLength,
    buffer := (out ++ result.drop out.length).take result.length,
    written := out.length, overrun := decide (result.length < out.length),
    length := key.length }

/-- Modelled from the spec: `maybeThrowIcuException(env, status)` of JniException.h, not
under src/: the marshalling layer "translates this core's failure signals into
host-visible exceptions".  A failing status raises an exception that reports it; any
other status raises nothing. -/
def maybeThrowIcuException {σ : Type} (E : Engine σ) (status : UErrorCode) :
    Option UErrorCode :=
  if E.U_FAILURE status then some status else none

/-- The cast `static_cast<uintptr_t>(address)` of a `jint`: sign extension, that is the
value modulo `2 ^ w`. -/
def static_cast_uintptr (w : Nat) (address : jint) : Nat :=
  (address % (2 : Int) ^ w).toNat

/-- The source's `toCollator`. -/
def toCollator (w : Nat) (address : jint) : Nat :=
  static_cast_uintptr w address

/-- The source's `toCollationElements`. -/
def toCollationElements (w : Nat) (address : jint) : Nat :=
  static_cast_uintptr w address

/-- The cast `static_cast<jint>(reinterpret_cast<uintptr_t>(p))`: the low 32 bits of the
address read as a signed integer. -/
def static_cast_jint (p : Nat) : jint :=
  if p % 2 ^ 32 < 2 ^ 31 then ((p % 2 ^ 32 : Nat) : Int)
  else ((p % 2 ^ 32 : Nat) : Int) - 2 ^ 32

/-- What a native method hands back: the returned value, the exception raised through
`maybeThrowIcuException` in this call if any, and the engine state. -/
structure JniReturn (σ α : Type) where
  value : α
  thrown : Option UErrorCode
  state : σ

/-- The source's `NativeCollation_compare`. -/
def NativeCollation_compare {σ : Type} (E : Engine σ) (w : Nat) (s : σ) (address : jint)
    (lhs rhs : Option (List UChar)) : jint :=
  match lhs with
  | none => 0
  | some lhsChars =>
    match rhs with
    | none => 0
    | some rhsChars => E.ucol_strcoll s (toCollator w address) lhsChars rhsChars

/-- The source's `NativeCollation_getAttribute`. -/
def NativeCollation_getAttribute {σ : Type} (E : Engine σ) (w : Nat) (s : σ)
    (address type : jint) : JniReturn σ jint :=
  let status := E.U_ZERO_ERROR
  let r := E.ucol_getAttribute s (toCollator w address) type status
  { value := r.1, thrown := maybeThrowIcuException E r.2, state := s }

/-- The source's `NativeCollation_getCollationElementIterator`. -/
def NativeCollation_getCollationElementIterator {σ : Type} (E : Engine σ) (w : Nat)
    (s : σ) (address : jint) (source : Option (List UChar)) : JniReturn σ jint :=
  match source with
  | none => { value := -1, thrown := none, state := s }
  | some chars =>
    let status := E.U_ZERO_ERROR
    let r := E.ucol_openElements s (toCollator w address) chars status
    { value := static_cast_jint r.result, thrown := maybeThrowIcuException E r.status,
      state := r.state }

/-- A run of `NativeCollation_getSortKey`: what the engine calls it made returned, in
order, whether `largerByteArray` was used, the buffer `usedByteArray` points to at the
end, the final `byteArraySize`, and the returned array (`none` for `NULL`). -/
structure SortKeyRun where
  engineCalls : List SortKeyCall
  usedLarger : Bool
  usedByteArray : List Byte
  byteArraySize : Nat
  result : Option (List Byte)

/-- The tail of `NativeCollation_getSortKey`: `NULL` for size zero, otherwise a new byte
array of `byteArraySize` bytes filled from the start of `usedByteArray`. -/
def newByteArrayRegion (usedByteArray : List Byte) (byteArraySize : Nat) :
    Option (List Byte) :=
  if byteArraySize = 0 then none else some (usedByteArray.take byteArraySize)

/-- The source's `NativeCollation_getSortKey`, keeping what each engine call returned.
`stackInit` and `heapInit` are the bytes found in the uninitialised stack array and in the
fresh heap array. -/
def NativeCollation_getSortKey_run {σ : Type} (E : Engine σ) (w : Nat) (s : σ)
    (address : jint) (source : Option (List UChar)) (stackInit heapInit : Nat → Byte) :
    SortKeyRun :=
  match source with
  | none =>
    { engineCalls := [], usedLarger := false, usedByteArray := [], byteArraySize := 0,
      result := none }
  | some chars =>
    let collator := toCollator w address
    let sizeofByteArray := E.UCOL_MAX_BUFFER * 2
    let byteArray : List Byte := (List.range sizeofByteArray).map stackInit
    let first := E.ucol_getSortKey s collator chars byteArray (sizeofByteArray - 1)
    if first.length > sizeofByteArray - 1 then
      let largerByteArray : List Byte := (List.range (first.length + 1)).map heapInit
      let second := E.ucol_getSortKey s collator chars largerByteArray first.length
      { engineCalls := [first, second], usedLarger := true, usedByteArray := second.buffer,
        byteArraySize := second.length,
        result := newByteArrayRegion second.buffer second.length }
    else
      { engineCalls := [first], usedLarger := false, usedByteArray := first.buffer,
        byteArraySize := first.length,
        result := newByteArrayRegion first.buffer first.length }

/-- The source's `NativeCollation_getSortKey`: the returned `jbyteArray`. -/
def NativeCollation_getSortKey {σ : Type} (E : Engine σ) (w : Nat) (s : σ)
    (address : jint) (source : Option (List UChar)) (stackInit heapInit : Nat → Byte) :
    Option (List Byte) :=
  (NativeCollation_getSortKey_run E w s address source stackInit heapInit).result

/-- The source's `NativeCollation_next`. -/
def NativeCollation_next {σ : Type} (E : Engine σ) (w : Nat) (s : σ) (address : jint) :
    JniReturn σ jint :=
  let status := E.U_ZERO_ERROR
  let r := E.ucol_next s (toCollationElements w address) status
  { value := r.result, thrown := maybeThrowIcuException E r.status, state := r.state }

/-- The source's `NativeCollation_openCollator`; `localeChars` is `localeChars.c_str()`. -/
def NativeCollation_openCollator {σ : Type} (E : Engine σ) (s : σ)
    (localeChars : Option String) : JniReturn σ jint :=
  match localeChars with
  | none => { value := 0, thrown := none, state := s }
  | some locale =>
    let status := E.U_ZERO_ERROR
    let r := E.ucol_open s locale status
    { value := static_cast_jint r.result, thrown := maybeThrowIcuException E r.status,
      state := r.state }

/-- The source's `NativeCollation_openCollatorFromRules`. -/
def NativeCollation_openCollatorFromRules {σ : Type} (E : Engine σ) (s : σ)
    (rules : Option (List UChar)) (mode strength : jint) : JniReturn σ jint :=
  match rules with
  | none => { value := -1, thrown := none, state := s }
  | some chars =>
    let status := E.U_ZERO_ERROR
    let r := E.ucol_openRules s chars mode strength status
    { value := static_cast_jint r.result, thrown := maybeThrowIcuException E r.status,
      state := r.state }

/-- The source's `NativeCollation_previous`. -/
def NativeCollation_previous {σ : Type} (E : Engine σ) (w : Nat) (s : σ)
    (address : jint) : JniReturn σ jint :=
  let status := E.U_ZERO_ERROR
  let r := E.ucol_previous s (toCollationElements w address) status
  { value := r.result, thrown := maybeThrowIcuException E r.status, state := r.state }

/-- The source's `NativeCollation_safeClone`. -/
def NativeCollation_safeClone {σ : Type} (E : Engine σ) (w : Nat) (s : σ)
    (address : jint) : JniReturn σ jint :=
  let status := E.U_ZERO_ERROR
  let bufferSize := E.U_COL_SAFECLONE_BUFFERSIZE
  let r := E.ucol_safeClone s (toCollator w address) bufferSize status
  { value := static_cast_jint r.result, thrown := maybeThrowIcuException E r.status,
    state := r.state }

/-- The source's `NativeCollation_setAttribute`. -/
def NativeCollation_setAttribute {σ : Type} (E : Engine σ) (w : Nat) (s : σ)
    (address type value : jint) : JniReturn σ Unit :=
  let status := E.U_ZERO_ERROR
  let r := E.ucol_setAttribute s (toCollator w address) type value status
  { value := (), thrown := maybeThrowIcuException E r.status, state := r.state }

/-- The source's `NativeCollation_setOffset`. -/
def NativeCollation_setOffset {σ : Type} (E : Engine σ) (w : Nat) (s : σ)
    (address offset : jint) : JniReturn σ Unit :=
  let status := E.U_ZERO_ERROR
  let r := E.ucol_setOffset s (toCollationElements w address) offset status
  { value := (), thrown := maybeThrowIcuException E r.status, state := r.state }

/-- The source's `NativeCollation_setText`. -/
def NativeCollation_setText {σ : Type} (E : Engine σ) (w : Nat) (s : σ)
    (address : jint) (source : Option (List UChar)) : JniReturn σ Unit :=
  match source with
  | none => { value := (), thrown := none, state := s }
  | some chars =>
    let status := E.U_ZERO_ERROR
    let r := E.ucol_setText s (toCollationElements w address) chars status
    { value := (), thrown := maybeThrowIcuException E r.status, state := r.state }

/-- The calls that hand the engine a status, with marshallable inputs. -/
inductive StatusCall where
  | getAttribute (address type : jint)
  | getCollationElementIterator (address : jint) (source : List UChar)
  | next (address : jint)
  | openCollator (localeChars : String)
  | openCollatorFromRules (rules : List UChar) (mode strength : jint)
  | previous (address : jint)
  | safeClone (address : jint)
  | setAttribute (address type value : jint)
  | setOffset (address offset : jint)
  | setText (address : jint) (source : List UChar)

/-- The wrapper run on one call: the exception it raises, if any, and the state left. -/
def StatusCall.perform {σ : Type} (E : Engine σ) (w : Nat) (s : σ) :
    StatusCall → Option UErrorCode × σ
  | .getAttribute address type =>
    let r := NativeCollation_getAttribute E w s address type
    (r.thrown, r.state)
  | .getCollationElementIterator address source =>
    let r := NativeCollation_getCollationElementIterator E w s address (some source)
    (r.thrown, r.state)
  | .next address =>
    let r := NativeCollation_next E w s address
    (r.thrown, r.state)
  | .openCollator localeChars =>
    let r := NativeCollation_openCollator E s (some localeChars)
    (r.thrown, r.state)
  | .openCollatorFromRules rules mode strength =>
    let r := NativeCollation_openCollatorFromRules E s (some rules) mode strength
    (r.thrown, r.state)
  | .previous address =>
    let r := NativeCollation_previous E w s address
    (r.thrown, r.state)
  | .safeClone address =>
    let r := NativeCollation_safeClone E w s address
    (r.thrown, r.state)
  | .setAttribute address type value =>
    let r := NativeCollation_setAttribute E w s address type value
    (r.thrown, r.state)
  | .setOffset address offset =>
    let r := NativeCollation_setOffset E w s address offset
    (r.thrown, r.state)
  | .setText address source =>
    let r := NativeCollation_setText E w s address (some source)
    (r.thrown, r.state)

/-- The engine function behind one call, handed the status `status`: the status it leaves
and the state it leaves. -/
def StatusCall.engine {σ : Type} (E : Engine σ) (w : Nat) (s : σ) (status : UErrorCode) :
    StatusCall → UErrorCode × σ
  | .getAttribute address type =>
    ((E.ucol_getAttribute s (toCollator w address) type status).2, s)
  | .getCollationElementIterator address source =>
    let r := E.ucol_openElements s (toCollator w address) source status
    (r.status, r.state)
  | .next address =>
    let r := E.ucol_next s (toCollationElements w address) status
    (r.status, r.state)
  | .openCollator localeChars =>
    let r := E.ucol_open s localeChars status
    (r.status, r.state)
  | .openCollatorFromRules rules mode strength =>
    let r := E.ucol_openRules s rules mode strength status
    (r.status, r.state)
  | .previous address =>
    let r := E.ucol_previous s (toCollationElements w address) status
    (r.status, r.state)
  | .safeClone address =>
    let r := E.ucol_safeClone s (toCollator w address) E.U_COL_SAFECLONE_BUFFERSIZE status
    (r.status, r.state)
  | .setAttribute address type value =>
    let r := E.ucol_setAttribute s (toCollator w address) type value status
    (r.status, r.state)
  | .setOffset address offset =>
    let r := E.ucol_setOffset s (toCollationElements w address) offset status
    (r.status, r.state)
  | .setText address source =>
    let r := E.ucol_setText s (toCollationElements w address) source status
    (r.status, r.state)

/-- A sequence of calls run through the wrapper, one after the other on the evolving
state: for each call, whether it raised an exception. -/
def raisedInSequence {σ : Type} (E : Engine σ) (w : Nat) : σ → List StatusCall → List Bool
  | _, [] => []
  | s, c :: cs =>
    (c.perform E w s).1.isSome :: raisedInSequence E w (c.perform E w s).2 cs

/-- The same sequence seen from the engine, every call handed a fresh `U_ZERO_ERROR`:
for each call, whether the engine left a failing status in it. -/
def engineFailedInSequence {σ : Type} (E : Engine σ) (w : Nat) :
    σ → List StatusCall → List Bool
  | _, [] => []
  | s, c :: cs =>
    E.U_FAILURE (c.engine E w s E.U_ZERO_ERROR).1 ::
      engineFailedInSequence E w (c.engine E w s E.U_ZERO_ERROR).2 cs

/-- Byte-wise lexicographic comparison of two keys (the spec's `byteCompare`): the
difference of the first pair of bytes that differ; a proper prefix sorts first. -/
def byteCompare : List Byte → List Byte → Int
  | [], [] => 0
  | [], _ :: _ => -1
  | _ :: _, [] => 1
  | x :: xs, y :: ys => if x = y then byteCompare xs ys else (x.val : Int) - (y.val : Int)

/-- Modelled from the spec: the engine's sort-key encoder and comparison, not under src/.
"Lexicographic byte comparison of two sort keys is equivalent to the Collator's string
comparison result": `ucol_strcoll` is the sign of the byte comparison of the two keys. -/
def SortKeyOrderContract {σ : Type} (E : Engine σ) : Prop :=
  ∀ s coll a b,
    E.ucol_strcoll s coll a b = Int.sign (byteCompare (E.sortKey s coll a) (E.sortKey s coll b))

/-- Modelled from the spec: the engine's sort-key encoder, not under src/.  Every key is
its level runs "followed by a terminating zero byte". -/
def SortKeyTerminated {σ : Type} (E : Engine σ) : Prop :=
  ∀ s coll text, ∃ levels, E.sortKey s coll text = levels ++ [0]

/-- Modelled from the spec: the engine's sort-key encoder, not under src/.  The key of the
empty text is "a minimal valid key (terminator only, no level data)". -/
def EmptyTextKeyIsTerminator {σ : Type} (E : Engine σ) : Prop :=
  ∀ s coll, E.sortKey s coll [] = [0]

/-- Modelled from the spec: the engine's iterator `open`, not under src/.  "Binding to
empty/invalid text source is reported": opening on the empty text leaves a failing
status. -/
def OpenElementsReportsEmptyText {σ : Type} (E : Engine σ) : Prop :=
  ∀ s coll, E.U_FAILURE (E.ucol_openElements s coll [] E.U_ZERO_ERROR).status = true

/-- Modelled from the spec: the engine's `setAttribute`, not under src/.  An "invalid
attribute/value combination fails with InvalidAttributeError and leaves state unchanged";
`invalid` says which combinations the engine holds invalid. -/
def SetAttributeRejectsInvalid {σ : Type} (E : Engine σ) (invalid : Int → Int → Prop) :
    Prop :=
  ∀ s coll type value, invalid type value →
    E.U_FAILURE (E.ucol_setAttribute s coll type value E.U_ZERO_ERROR).status = true ∧
    (E.ucol_setAttribute s coll type value E.U_ZERO_ERROR).state = s

/-! ## A small engine for concrete evaluation -/

/-- State of the sample engine: the strength attribute and how many native objects have
been opened. -/
structure SampleState where
  strength : Int
  opened : Nat
deriving DecidableEq

/-- Sort key of the sample engine: one primary byte per code unit, then the terminator. -/
def sampleKey (text : List UChar) : List Byte :=
  text.map (fun u => (Fin.ofNat (u % 254 + 2) : Fin 256)) ++ [0]

/-- Address the sample engine gives its next native object. -/
def sampleAddress (s : SampleState) : Nat := 4096 + 16 * s.opened

/-- A sample engine: status 0 is no error, positive statuses fail, status 1 is the
illegal-argument error; the only attribute is kind 5 (strength) with values 0 to 3. -/
def sampleEngine : Engine SampleState where
  U_ZERO_ERROR := 0
  U_FAILURE := fun c => decide (0 < c)
  UCOL_MAX_BUFFER := 2
  U_COL_SAFECLONE_BUFFERSIZE := 1
  ucol_strcoll := fun _ _ a b => Int.sign (byteCompare (sampleKey a) (sampleKey b))
  sortKey := fun _ _ text => sampleKey text
  ucol_getAttribute := fun s _ type status =>
    if 0 < status then (-1, status)
    else if type = 5 then (s.strength, status) else (-1, 1)
  ucol_setAttribute := fun s _ type value status =>
    if 0 < status then ⟨(), status, s⟩
    else if type = 5 ∧ 0 ≤ value ∧ value ≤ 3 then ⟨(), status, { s with strength := value }⟩
    else ⟨(), 1, s⟩
  ucol_openElements := fun s _ text status =>
    if 0 < status then ⟨0, status, s⟩
    else if text = [] then ⟨0, 1, s⟩
    else ⟨sampleAddress s, status, { s with opened := s.opened + 1 }⟩
  ucol_next := fun s _ status => ⟨-1, status, s⟩
  ucol_previous := fun s _ status => ⟨-1, status, s⟩
  ucol_open := fun s _ status =>
    if 0 < status then ⟨0, status, s⟩
    else ⟨sampleAddress s, status, { s with opened := s.opened + 1 }⟩
  ucol_openRules := fun s rules _ _ status =>
    if 0 < status then ⟨0, status, s⟩
    else if rules = [] then ⟨0, 1, s⟩
    else ⟨sampleAddress s, status, { s with opened := s.opened + 1 }⟩
  ucol_safeClone := fun s _ _ status =>
    if 0 < status then ⟨0, status, s⟩
    else ⟨sampleAddress s, status, { s with opened := s.opened + 1 }⟩
  ucol_setOffset := fun s _ offset status =>
    if 0 < status then ⟨(), status, s⟩
    else if offset < 0 then ⟨(), 8, s⟩ else ⟨(), status, s⟩
  ucol_setText := fun s _ _ status => ⟨(), status, s⟩

/-- Initial state of the sample engine. -/
def sampleState : SampleState := { strength := 2, opened := 0 }

/-- Contents of uninitialised memory used in concrete evaluations. -/
def sampleGarbage : Nat → Byte := fun i => Fin.ofNat (171 + i)

end NativeCollation

/-! ## Theorems -/

namespace NativeCollation

section SortKey

variable {σ : Type}

/-- An engine call whose capacity and buffer both cover the whole key leaves the whole
key at the start of the buffer. -/
theorem ucol_getSortKey_take (E : Engine σ) (s : σ) (coll : Nat) (source : List UChar)
    (result : List Byte) (resultLength : Nat)
    (h : (E.sortKey s coll source).length ≤ resultLength)
    (hb : (E.sortKey s coll source).length ≤ result.length) :
    (E.ucol_getSortKey s coll source result resultLength).buffer.take
        (E.sortKey s coll source).length
      = E.sortKey s coll source := by
  simp only [Engine.ucol_getSortKey]
  rw [List.take_of_length_le h, List.take_take, Nat.min_eq_left hb]
  exact List.take_left' rfl

/-- The returned length is the key length, whatever buffer and capacity are passed. -/
theorem ucol_getSortKey_length (E : Engine σ) (s : σ) (coll : Nat) (source : List UChar)
    (result : List Byte) (resultLength : Nat) :
    (E.ucol_getSortKey s coll source result resultLength).length
      = (E.sortKey s coll source).length := rfl

/-- Closed form of the wrapper on a marshalled text: `NULL` for a key of length zero,
the complete key otherwise. -/
theorem getSortKey_some (E : Engine σ) (w : Nat) (s : σ) (address : jint)
    (chars : List UChar) (stackInit heapInit : Nat → Byte) :
    NativeCollation_getSortKey E w s address (some chars) stackInit heapInit
      = if (E.sortKey s (toCollator w address) chars).length = 0 then none
        else some (E.sortKey s (toCollator w address) chars) := by
  unfold NativeCollation_getSortKey NativeCollation_getSortKey_run
  simp only [ucol_getSortKey_length, newByteArrayRegion]
  split
  · rw [ucol_getSortKey_take E s _ chars _ _ (le_refl _)
      (by rw [List.length_map, List.length_range]; omega)]
  · rename_i h
    rw [ucol_getSortKey_take E s _ chars _ _ (not_lt.mp h)
      (by rw [List.length_map, List.length_range]; omega)]

/-- C1: `getSortKey` never truncates.  For every marshalled source text, with the engine
writing at most `capacity` bytes of the full key and returning the full key length `n`,
whenever `n ≥ 1` the returned array has exactly `n` bytes and is the engine's complete
key, on the stack path (`n ≤ sizeof(byteArray) - 1`) and on the heap path
(`n > sizeof(byteArray) - 1`) alike. -/
theorem getSortKey_never_truncates (E : Engine σ) (w : Nat) (s : σ) (address : jint)
    (chars : List UChar) (stackInit heapInit : Nat → Byte)
    (hn : 1 ≤ (E.sortKey s (toCollator w address) chars).length) :
    (∃ bytes, NativeCollation_getSortKey E w s address (some chars) stackInit heapInit
        = some bytes ∧
      bytes.length = (E.sortKey s (toCollator w address) chars).length ∧
      bytes = E.sortKey s (toCollator w address) chars) ∧
    ((E.sortKey s (toCollator w address) chars).length ≤ E.UCOL_MAX_BUFFER * 2 - 1 →
      (NativeCollation_getSortKey_run E w s address (some chars) stackInit
          heapInit).usedLarger = false ∧
      (NativeCollation_getSortKey_run E w s address (some chars) stackInit
          heapInit).result = some (E.sortKey s (toCollator w address) chars)) ∧
    ((E.sortKey s (toCollator w address) chars).length > E.UCOL_MAX_BUFFER * 2 - 1 →
      (NativeCollation_getSortKey_run E w s address (some chars) stackInit
          heapInit).usedLarger = true ∧
      (NativeCollation_getSortKey_run E w s address (some chars) stackInit
          heapInit).result = some (E.sortKey s (toCollator w address) chars)) := by
  have hres : NativeCollation_getSortKey E w s address (some chars) stackInit heapInit
      = some (E.sortKey s (toCollator w address) chars) := by
    rw [getSortKey_some, if_neg (by omega)]
  refine ⟨⟨_, hres, rfl, rfl⟩, fun hle => ⟨?_, hres⟩, fun hgt => ⟨?_, hres⟩⟩
  · simp only [NativeCollation_getSortKey_run, ucol_getSortKey_length]
    rw [if_neg (by omega)]
  · simp only [NativeCollation_getSortKey_run, ucol_getSortKey_length]
    rw [if_pos hgt]

/-- C1 at a concrete input: a five-byte key with a four-byte stack array, heap path. -/
theorem getSortKey_never_truncates_witness :
    1 ≤ (sampleEngine.sortKey sampleState (toCollator 32 4096) [97, 98, 99, 100]).length ∧
    ∃ bytes, NativeCollation_getSortKey sampleEngine 32 sampleState 4096
        (some [97, 98, 99, 100]) sampleGarbage sampleGarbage = some bytes ∧
      bytes.length
        = (sampleEngine.sortKey sampleState (toCollator 32 4096) [97, 98, 99, 100]).length ∧
      bytes = sampleEngine.sortKey sampleState (toCollator 32 4096) [97, 98, 99, 100] :=
  ⟨by decide,
    (getSortKey_never_truncates sampleEngine 32 sampleState 4096 [97, 98, 99, 100]
      sampleGarbage sampleGarbage (by decide)).1⟩

/-- C8: `getSortKey` is deterministic.  Two calls with the same Collator state and the
same text (marshalled or not) return the same result, byte for byte or both `NULL`,
whatever the uninitialised stack and heap buffers hold and whichever buffer is used. -/
theorem getSortKey_deterministic (E : Engine σ) (w : Nat) (s : σ) (address : jint)
    (source : Option (List UChar)) (stackInit heapInit stackInit' heapInit' : Nat → Byte) :
    NativeCollation_getSortKey E w s address source stackInit heapInit
      = NativeCollation_getSortKey E w s address source stackInit' heapInit' := by
  cases source with
  | none => rfl
  | some chars => rw [getSortKey_some, getSortKey_some]

/-- C4: for every Collator, `getSortKey` on the empty marshalled string returns a
non-`NULL` array holding the minimal key, the terminator byte alone, for an engine whose
key of the empty text is the terminator only. -/
theorem getSortKey_empty_text (E : Engine σ) (w : Nat) (s : σ) (address : jint)
    (stackInit heapInit : Nat → Byte)
    (hbuf : 0 < E.UCOL_MAX_BUFFER) (hspec : EmptyTextKeyIsTerminator E) :
    NativeCollation_getSortKey E w s address (some []) stackInit heapInit = some [0] ∧
    (NativeCollation_getSortKey_run E w s address (some []) stackInit
        heapInit).usedLarger = false := by
  have hkey := hspec s (toCollator w address)
  constructor
  · rw [getSortKey_some, hkey]
    rfl
  · simp only [NativeCollation_getSortKey_run, ucol_getSortKey_length, hkey]
    rw [if_neg (by simp only [List.length_singleton]; omega)]

/-- C4 at the sample engine. -/
theorem getSortKey_empty_text_witness :
    0 < sampleEngine.UCOL_MAX_BUFFER ∧ EmptyTextKeyIsTerminator sampleEngine ∧
    NativeCollation_getSortKey sampleEngine 32 sampleState 4096 (some []) sampleGarbage
      sampleGarbage = some [0] :=
  ⟨by decide, fun _ _ => rfl,
    (getSortKey_empty_text sampleEngine 32 sampleState 4096 sampleGarbage sampleGarbage
      (by decide) (fun _ _ => rfl)).1⟩

/-- C2: for all marshalled strings `a` and `b` under the same Collator state, both sort
keys are returned whole and `compare(a, b)` is the sign of their lexicographic byte
comparison, for an engine whose comparison agrees with its sort keys and whose keys end
in the terminator byte. -/
theorem compare_eq_sign_byteCompare_sortKeys (E : Engine σ) (w : Nat) (s : σ)
    (address : jint) (a b : List UChar) (stackInit heapInit stackInit' heapInit' : Nat → Byte)
    (horder : SortKeyOrderContract E) (hterm : SortKeyTerminated E) :
    ∃ keyA keyB,
      NativeCollation_getSortKey E w s address (some a) stackInit heapInit = some keyA ∧
      NativeCollation_getSortKey E w s address (some b) stackInit' heapInit' = some keyB ∧
      NativeCollation_compare E w s address (some a) (some b)
        = Int.sign (byteCompare keyA keyB) := by
  have hlen : ∀ text, (E.sortKey s (toCollator w address) text).length ≠ 0 := by
    intro text
    obtain ⟨levels, hk⟩ := hterm s (toCollator w address) text
    rw [hk, List.length_append, List.length_singleton]
    omega
  refine ⟨E.sortKey s (toCollator w address) a, E.sortKey s (toCollator w address) b,
    ?_, ?_, ?_⟩
  · rw [getSortKey_some, if_neg (hlen a)]
  · rw [getSortKey_some, if_neg (hlen b)]
  · exact horder s (toCollator w address) a b

/-- C2 at the sample engine, one key on the stack and one on the heap. -/
theorem compare_eq_sign_byteCompare_sortKeys_witness :
    SortKeyOrderContract sampleEngine ∧
    SortKeyTerminated sampleEngine ∧
    ∃ keyA keyB,
      NativeCollation_getSortKey sampleEngine 32 sampleState 4096 (some [97, 98])
        sampleGarbage sampleGarbage = some keyA ∧
      NativeCollation_getSortKey sampleEngine 32 sampleState 4096 (some [97, 98, 99, 100])
        sampleGarbage sampleGarbage = some keyB ∧
      NativeCollation_compare sampleEngine 32 sampleState 4096 (some [97, 98])
        (some [97, 98, 99, 100]) = Int.sign (byteCompare keyA keyB) :=
  ⟨fun _ _ _ _ => rfl, fun _ _ _ => ⟨_, rfl⟩,
    compare_eq_sign_byteCompare_sortKeys sampleEngine 32 sampleState 4096 [97, 98]
      [97, 98, 99, 100] sampleGarbage sampleGarbage sampleGarbage sampleGarbage
      (fun _ _ _ _ => rfl) (fun _ _ _ => ⟨_, rfl⟩)⟩

end SortKey

section Calls

variable {σ : Type}

/-- C3, as the code has it: whenever the left or the right string cannot be marshalled
(its character data is `NULL`), `compare` returns 0, the value it returns for two strings
that compare equal, whatever the engine; the returned value does not tell the two apart. -/
theorem compare_unmarshallable_returns_zero (E : Engine σ) (w : Nat) (s : σ)
    (address : jint) (lhs rhs : Option (List UChar)) (h : lhs = none ∨ rhs = none) :
    NativeCollation_compare E w s address lhs rhs = 0 := by
  rcases h with h | h
  · subst h
    rfl
  · subst h
    cases lhs <;> rfl

/-- C3 as amended, at a concrete input: the right string is not marshallable. -/
theorem compare_unmarshallable_returns_zero_witness :
    ((some [97] : Option (List UChar)) = none ∨ (none : Option (List UChar)) = none) ∧
    NativeCollation_compare sampleEngine 32 sampleState 4096 (some [97]) none = 0 :=
  ⟨Or.inr rfl,
    compare_unmarshallable_returns_zero sampleEngine 32 sampleState 4096 (some [97]) none
      (Or.inr rfl)⟩

/-- C3 as stated fails: with an unmarshallable left string `compare` returns 0, exactly
what it returns for two equal strings. -/
theorem compare_unmarshallable_counterexample :
    NativeCollation_compare sampleEngine 32 sampleState 4096 none (some [97]) = 0 ∧
    NativeCollation_compare sampleEngine 32 sampleState 4096 (some [97]) (some [97]) = 0 := by
  decide

/-- A handle made from an aligned (even) address is never the failure value -1. -/
theorem static_cast_jint_ne_neg_one (p : Nat) (hp : p % 2 = 0) :
    static_cast_jint p ≠ -1 := by
  intro h
  have h1 : @Eq Int (static_cast_jint p) (-1) := h
  unfold static_cast_jint at h1
  norm_num at h1
  split at h1 <;> omega

/-- C5: opening an iterator on an invalid source text (character data `NULL`) returns the
failure value -1 and opens nothing, and -1 is never the handle of an iterator the engine
opened at an aligned address, so the caller can tell the two apart; on the empty text the
call raises an exception, for an engine that reports binding to an empty text as a
failure. -/
theorem getCollationElementIterator_reports_failure (E : Engine σ) (w : Nat) (s : σ)
    (address : jint) :
    ((NativeCollation_getCollationElementIterator E w s address none).value = -1 ∧
      (NativeCollation_getCollationElementIterator E w s address none).state = s) ∧
    (∀ chars : List UChar,
      (E.ucol_openElements s (toCollator w address) chars E.U_ZERO_ERROR).result % 2 = 0 →
      (NativeCollation_getCollationElementIterator E w s address (some chars)).value ≠ -1) ∧
    (OpenElementsReportsEmptyText E →
      (NativeCollation_getCollationElementIterator E w s address (some [])).thrown
        = some (E.ucol_openElements s (toCollator w address) [] E.U_ZERO_ERROR).status ∧
      E.U_FAILURE (E.ucol_openElements s (toCollator w address) [] E.U_ZERO_ERROR).status
        = true) := by
  refine ⟨⟨rfl, rfl⟩, fun chars hp => static_cast_jint_ne_neg_one _ hp, fun hspec => ?_⟩
  simp only [NativeCollation_getCollationElementIterator, maybeThrowIcuException]
  rw [if_pos (hspec s (toCollator w address))]
  exact ⟨rfl, hspec s (toCollator w address)⟩

/-- C5 at the sample engine. -/
theorem getCollationElementIterator_reports_failure_witness :
    OpenElementsReportsEmptyText sampleEngine ∧
    (NativeCollation_getCollationElementIterator sampleEngine 32 sampleState 4096
      (some [])).thrown = some 1 :=
  ⟨fun _ _ => rfl,
    ((getCollationElementIterator_reports_failure sampleEngine 32 sampleState 4096).2.2
      (fun _ _ => rfl)).1⟩

/-- Every call that hands the engine a status starts it at `U_ZERO_ERROR`, raises exactly
when the engine leaves a failing status, and leaves the engine's state. -/
theorem perform_eq_engine (E : Engine σ) (w : Nat) (s : σ) (c : StatusCall) :
    (c.perform E w s).1 = maybeThrowIcuException E (c.engine E w s E.U_ZERO_ERROR).1 ∧
    (c.perform E w s).2 = (c.engine E w s E.U_ZERO_ERROR).2 := by
  cases c <;> exact ⟨rfl, rfl⟩

/-- An exception is raised exactly for a failing status. -/
theorem maybeThrowIcuException_isSome (E : Engine σ) (status : UErrorCode) :
    (maybeThrowIcuException E status).isSome = E.U_FAILURE status := by
  unfold maybeThrowIcuException
  cases E.U_FAILURE status <;> rfl

/-- C6: every error is reported at the call that triggered it.  Each of the ten calls
that hand the engine a status starts that status at no-error and raises an exception if
and only if the engine leaves a failing status in it; and in any sequence of such calls
the calls that raise are exactly those in which the engine, started afresh at no-error,
left a failing status: nothing survives from an earlier call or reaches a later one. -/
theorem errors_reported_at_triggering_call (E : Engine σ) (w : Nat) :
    (∀ (s : σ) (c : StatusCall),
      ((c.perform E w s).1.isSome = true ↔
        E.U_FAILURE (c.engine E w s E.U_ZERO_ERROR).1 = true) ∧
      (c.perform E w s).2 = (c.engine E w s E.U_ZERO_ERROR).2) ∧
    (∀ (s : σ) (cs : List StatusCall),
      raisedInSequence E w s cs = engineFailedInSequence E w s cs) := by
  constructor
  · intro s c
    obtain ⟨h1, h2⟩ := perform_eq_engine E w s c
    rw [h1, maybeThrowIcuException_isSome]
    exact ⟨Iff.rfl, h2⟩
  · intro s cs
    induction cs generalizing s with
    | nil => rfl
    | cons c cs ih =>
      obtain ⟨h1, h2⟩ := perform_eq_engine E w s c
      simp only [raisedInSequence, engineFailedInSequence]
      rw [h1, h2, maybeThrowIcuException_isSome, ih]

/-- C7: when `setAttribute` is given an invalid attribute/value combination it raises an
exception, the Collator state after the call is the state before it, and `getAttribute`
of every kind returns the same value (and raises the same) before and after, for an
engine that rejects invalid combinations without changing its state. -/
theorem setAttribute_invalid_leaves_state (E : Engine σ) (invalid : Int → Int → Prop)
    (w : Nat) (s : σ) (address type value : jint)
    (hspec : SetAttributeRejectsInvalid E invalid) (hinv : invalid type value) :
    (NativeCollation_setAttribute E w s address type value).thrown.isSome = true ∧
    (NativeCollation_setAttribute E w s address type value).state = s ∧
    ∀ (anyAddress kind : jint),
      (NativeCollation_getAttribute E w
          (NativeCollation_setAttribute E w s address type value).state anyAddress
          kind).value
        = (NativeCollation_getAttribute E w s anyAddress kind).value ∧
      (NativeCollation_getAttribute E w
          (NativeCollation_setAttribute E w s address type value).state anyAddress
          kind).thrown
        = (NativeCollation_getAttribute E w s anyAddress kind).thrown := by
  obtain ⟨hfail, hstate⟩ := hspec s (toCollator w address) type value hinv
  have hs : (NativeCollation_setAttribute E w s address type value).state = s := hstate
  refine ⟨?_, hs, ?_⟩
  · simp only [NativeCollation_setAttribute, maybeThrowIcuException_isSome]
    exact hfail
  · intro anyAddress kind
    rw [hs]
    exact ⟨rfl, rfl⟩

/-- The sample engine rejects every combination other than strength 0 to 3. -/
theorem sampleEngine_rejects_invalid :
    SetAttributeRejectsInvalid sampleEngine
      (fun type value => ¬ (type = 5 ∧ 0 ≤ value ∧ value ≤ 3)) := by
  intro s coll type value hinv
  simp only [sampleEngine]
  rw [if_neg (by decide), if_neg hinv]
  exact ⟨rfl, rfl⟩

/-- C7 at the sample engine: strength 9 is rejected. -/
theorem setAttribute_invalid_leaves_state_witness :
    SetAttributeRejectsInvalid sampleEngine
      (fun type value => ¬ (type = 5 ∧ 0 ≤ value ∧ value ≤ 3)) ∧
    ¬ ((5 : Int) = 5 ∧ (0 : Int) ≤ 9 ∧ (9 : Int) ≤ 3) ∧
    (NativeCollation_setAttribute sampleEngine 32 sampleState 4096 5 9).thrown.isSome
      = true ∧
    (NativeCollation_setAttribute sampleEngine 32 sampleState 4096 5 9).state
      = sampleState :=
  ⟨sampleEngine_rejects_invalid, by decide,
    (setAttribute_invalid_leaves_state sampleEngine _ 32 sampleState 4096 5 9
      sampleEngine_rejects_invalid (by decide)).1,
    (setAttribute_invalid_leaves_state sampleEngine _ 32 sampleState 4096 5 9
      sampleEngine_rejects_invalid (by decide)).2.1⟩

end Calls

section Handles

/-- Decoding a 32-bit handle on a 32-bit platform gives back the address. -/
theorem static_cast_round_trip_32 (p : Nat) (hp : p < 2 ^ 32) :
    static_cast_uintptr 32 (static_cast_jint p) = p := by
  unfold static_cast_uintptr static_cast_jint
  norm_num
  split <;> omega

/-- Decoding a 32-bit handle on a 64-bit platform gives back the address exactly for the
addresses whose upper 33 bits are all equal. -/
theorem static_cast_round_trip_64 (p : Nat) (hp : p < 2 ^ 64) :
    static_cast_uintptr 64 (static_cast_jint p) = p ↔ (p < 2 ^ 31 ∨ 2 ^ 64 - 2 ^ 31 ≤ p) := by
  unfold static_cast_uintptr static_cast_jint
  norm_num
  split <;> omega

/-- C10: handle round trip.  The four opening calls return the engine's address truncated
to the 32-bit signed `jint`; decoding that handle with `toCollator` or
`toCollationElements` gives back every address `p` when the pointer width is 32, and when
it is 64 gives back `p` if and only if `p < 2^31` or `p ≥ 2^64 - 2^31`. -/
theorem handle_round_trip :
    (∀ p : Nat, p < 2 ^ 32 →
      toCollator 32 (static_cast_jint p) = p ∧
      toCollationElements 32 (static_cast_jint p) = p) ∧
    (∀ p : Nat, p < 2 ^ 64 →
      (toCollator 64 (static_cast_jint p) = p ↔ (p < 2 ^ 31 ∨ 2 ^ 64 - 2 ^ 31 ≤ p)) ∧
      (toCollationElements 64 (static_cast_jint p) = p ↔
        (p < 2 ^ 31 ∨ 2 ^ 64 - 2 ^ 31 ≤ p))) ∧
    (∀ (σ : Type) (E : Engine σ) (w : Nat) (s : σ) (address mode strength : jint)
        (localeChars : String) (chars : List UChar),
      (NativeCollation_openCollator E s (some localeChars)).value
        = static_cast_jint (E.ucol_open s localeChars E.U_ZERO_ERROR).result ∧
      (NativeCollation_openCollatorFromRules E s (some chars) mode strength).value
        = static_cast_jint (E.ucol_openRules s chars mode strength E.U_ZERO_ERROR).result ∧
      (NativeCollation_safeClone E w s address).value
        = static_cast_jint (E.ucol_safeClone s (toCollator w address)
            E.U_COL_SAFECLONE_BUFFERSIZE E.U_ZERO_ERROR).result ∧
      (NativeCollation_getCollationElementIterator E w s address (some chars)).value
        = static_cast_jint (E.ucol_openElements s (toCollator w address) chars
            E.U_ZERO_ERROR).result) := by
  refine ⟨fun p hp => ⟨?_, ?_⟩, fun p hp => ⟨?_, ?_⟩, ?_⟩
  · exact static_cast_round_trip_32 p hp
  · exact static_cast_round_trip_32 p hp
  · exact static_cast_round_trip_64 p hp
  · exact static_cast_round_trip_64 p hp
  · intro σ E w s address mode strength localeChars chars
    exact ⟨rfl, rfl, rfl, rfl⟩

/-- C10 at concrete addresses: `2^31` survives on 32 bits and is lost on 64 bits. -/
theorem handle_round_trip_witness :
    (2 ^ 31 < 2 ^ 32 ∧ toCollator 32 (static_cast_jint (2 ^ 31)) = 2 ^ 31) ∧
    (2 ^ 31 < 2 ^ 64 ∧ ¬ toCollator 64 (static_cast_jint (2 ^ 31)) = 2 ^ 31) :=
  ⟨⟨by norm_num, (handle_round_trip.1 (2 ^ 31) (by norm_num)).1⟩,
    ⟨by norm_num, fun h =>
      absurd ((handle_round_trip.2.1 (2 ^ 31) (by norm_num)).1.mp h) (by norm_num)⟩⟩

end Handles

end NativeCollation
